import Mathlib

/-!
Shallow embedding of the aX Agent Studio message-pipeline core
(src/ax_agent_studio/queue_manager.py and monitoring/liveness.py):
the processor iteration of QueueManager.process_queue, the poller error
handling of QueueManager.poll_and_store together with
QueueManager._parse_error_and_get_wait_time, the startup sweep
QueueManager._startup_sweep, the mention parser QueueManager._parse_message,
and the LivenessRecord dataclass.

External collaborators (the SQLite message store, the MCP session, the JSON
decoder, the wall clock) are modelled as oracle inputs: each iteration of a
loop receives the values those collaborators returned, and the effects the
code requests from them are recorded as explicit actions.
-/

namespace AxAgentStudio

/-- Whitespace test matching the character class used by the Python regular
expressions and strip operations in the source (space, tab, newline,
carriage return, vertical tab, form feed). -/
def is_py_space (c : Char) : Bool :=
  c = ' ' || c = '\t' || c = '\n' || c = '\r' || c = '\x0b' || c = '\x0c'

/-- Occurrence of a pattern at some position of a character list: the
pattern is a prefix of some suffix. -/
def occurs_in (pat : List Char) : List Char → Bool
  | [] => List.isPrefixOf pat []
  | c :: rest => List.isPrefixOf pat (c :: rest) || occurs_in pat rest

/-- Substring containment, modelling the Python containment test of a
pattern inside a string. -/
def str_contains (s pat : String) : Bool :=
  occurs_in pat.toList s.toList

/-- Lowercasing of a string, modelling the Python str.lower method
character by character (the error markers the classifier matches are
ASCII). -/
def str_to_lower (s : String) : String :=
  String.mk (List.map Char.toLower s.toList)

/-- A queued message row as returned by the message store
(MessageStore rows carry id, sender, content and timestamp). -/
structure QMsg where
  id : String
  sender : String
  content : String
  timestamp : Int
  deriving DecidableEq

/-- Processing order chosen each iteration by QueueManager.process_queue
from the current backlog count: a backlog over 100 switches to FIFO
(ascending timestamps, order string asc), otherwise FILO (descending
timestamps, order string desc).  Source lines 497-507. -/
def processing_order (backlog : Nat) : String :=
  if 100 < backlog then "asc" else "desc"

/-- The dictionary passed to the message handler by process_queue.  The
single-message dictionary of the source omits the batch_size and
history_messages keys; here they are fixed to 1 and the empty list.  The
nested queue_status dictionary is flattened into backlog_count and
pending_messages. -/
structure HandlerInput where
  content : String
  sender : String
  id : String
  timestamp : Int
  batch_mode : Bool
  batch_size : Nat
  history_messages : List QMsg
  backlog_count : Nat
  pending_messages : List QMsg
  queue_messages : List QMsg
  deriving DecidableEq

/-- Handler input assembled by process_queue (source lines 548-606) from the
fetched batch, split as its first message and the remaining tail.  In batch
mode the current message is the first fetched one and the history is the
tail, reversed when the fetch order was desc (FILO) so that history is
chronological, kept as fetched when the order was asc (FIFO). -/
def build_handler_input (order : String) (backlog : Nat) (first : QMsg)
    (rest : List QMsg) : HandlerInput :=
  let all_pending := first :: rest
  let queue_snapshot := all_pending
  let batch_size := all_pending.length
  if 1 < batch_size then
    let history_msgs := if order = "desc" then rest.reverse else rest
    { content := first.content
      sender := first.sender
      id := first.id
      timestamp := first.timestamp
      batch_mode := true
      batch_size := batch_size
      history_messages := history_msgs
      backlog_count := backlog
      pending_messages := queue_snapshot
      queue_messages := queue_snapshot }
  else
    { content := first.content
      sender := first.sender
      id := first.id
      timestamp := first.timestamp
      batch_mode := false
      batch_size := 1
      history_messages := []
      backlog_count := backlog
      pending_messages := queue_snapshot
      queue_messages := queue_snapshot }

/-- Observable effects requested by one processor iteration: the pending
fetch from the store, the per-message status updates, the handler
invocation, and the reply send through the remote messages tool. -/
inductive Action where
  | fetch_pending (order : String) (lim : Nat)
  | mark_processing_started (id : String)
  | invoke_handler (input : HandlerInput)
  | send_message (content : String) (parent_message_id : String)
  | mark_processed (id : String)
  deriving DecidableEq

/-- Truthiness of the send guard of process_queue (source line 616): the
Python condition that the response string is non-empty and its
whitespace-stripped form is non-empty. -/
def should_send_response (response : String) : Bool :=
  !(List.isEmpty response.toList) &&
    List.any response.toList (fun c => !(is_py_space c))

/-- One iteration of QueueManager.process_queue (source lines 476-671) as
the list of effects it requests, given the oracle answers of its
collaborators: the kill-switch file check, the (post auto-resume) paused
flag, the backlog count, the fetched pending batch, and the handler outcome
(the returned value coerced to a string, or a raised exception).  A raised
send is absorbed by the same except clause as a raised handler and leads to
the same mark_processed effects, so it does not change the action list. -/
def process_queue_iteration (kill_switch paused : Bool) (backlog : Nat)
    (all_pending : List QMsg) (handler_result : Except Unit String) :
    List Action :=
  if kill_switch then []
  else if paused then []
  else
    let order := processing_order backlog
    Action.fetch_pending order 100 ::
      match all_pending with
      | [] => []
      | first :: rest =>
        (List.map (fun m => Action.mark_processing_started m.id)
            (first :: rest))
          ++ [Action.invoke_handler (build_handler_input order backlog first rest)]
          ++ (match handler_result with
              | Except.ok response =>
                if should_send_response response then
                  [Action.send_message response first.id]
                else []
              | Except.error _ => [])
          ++ (List.map (fun m => Action.mark_processed m.id) (first :: rest))

/-- Oracle answers consumed by one processor iteration. -/
structure IterInput where
  kill_switch : Bool
  paused : Bool
  backlog : Nat
  pending : List QMsg
  handler_result : Except Unit String

/-- A run of the processor loop over a sequence of iterations: each
iteration is evaluated on its own oracle answers only, as the loop body of
process_queue re-reads the backlog and re-chooses the order every pass and
keeps no ordering state between passes. -/
def process_queue_run (inputs : List IterInput) : List (List Action) :=
  List.map
    (fun it =>
      process_queue_iteration it.kill_switch it.paused it.backlog it.pending
        it.handler_result)
    inputs

/-- Recognizer for the send effect. -/
def is_send : Action → Bool
  | Action.send_message _ _ => true
  | _ => false

/-- Mutable poller retry state of QueueManager: the current backoff in
seconds (field _poll_backoff, initialized to 5) and the consecutive error
counter (field _poll_consecutive_errors, initialized to 0). -/
structure PollState where
  poll_backoff : Nat
  poll_consecutive_errors : Nat
  deriving DecidableEq

/-- The backoff ceiling, field _poll_backoff_max of QueueManager. -/
def poll_backoff_max : Nat := 60

/-- Index of the first occurrence of a character, modelling the Python
str.find method restricted to single-character needles. -/
def first_index_of (s : List Char) (c : Char) : Option Nat :=
  List.findIdx? (fun a => a = c) s

/-- Index of the last occurrence of a character, modelling the Python
str.rfind method restricted to single-character needles. -/
def last_index_of (s : List Char) (c : Char) : Option Nat :=
  match List.findIdx? (fun a => a = c) s.reverse with
  | some j => some (s.length - 1 - j)
  | none => none

/-- The substring of the error text handed to the JSON decoder by
_parse_error_and_get_wait_time: from the first opening brace to one past
the last closing brace (an absent closing brace gives slice end 0 and hence
the empty string, exactly as the Python slice does). -/
def brace_slice (s : String) : String :=
  match first_index_of s.toList '\x7b' with
  | none => ""
  | some i =>
    let j :=
      match last_index_of s.toList '\x7d' with
      | some k => k + 1
      | none => 0
    String.mk (List.take (j - i) (List.drop i s.toList))

/-- QueueManager._parse_error_and_get_wait_time (source lines 209-268).
The JSON decoder is an oracle json_loads mapping the sliced text to none
when decoding raises, and otherwise to the decoded object restricted to its
retry_after field (none when the key is absent, in which case the source
dict.get supplies the default 30).  The classifier reads the current
backoff from the poll state and never mutates it. -/
def parse_error_and_get_wait_time (json_loads : String → Option (Option Int))
    (st : PollState) (error_str : String) : String × Int :=
  if str_contains error_str "HTTP 429" ||
      str_contains (str_to_lower error_str) "rate_limited" then
    if str_contains error_str "\x7b" then
      match json_loads (brace_slice error_str) with
      | some retry_field => ("rate_limit", Option.getD retry_field 30)
      | none => ("rate_limit", 30)
    else ("rate_limit", 30)
  else if str_contains error_str "ConnectTimeoutError" ||
      str_contains error_str "Connection timeout" ||
      str_contains error_str "TimeoutError" then
    ("connection_timeout", Int.ofNat (min st.poll_backoff poll_backoff_max))
  else if str_contains error_str "ECONNRESET" ||
      str_contains error_str "ConnectionResetError" ||
      str_contains error_str "ConnectionRefusedError" ||
      str_contains error_str "OSError" then
    ("connection_error", Int.ofNat (min st.poll_backoff poll_backoff_max))
  else
    ("unknown", Int.ofNat (min st.poll_backoff poll_backoff_max))

/-- The exception branch of one poll_and_store iteration (source lines
426-459): classify the error, increment the consecutive error counter,
sleep the classified wait, and double the backoff up to the ceiling unless
the error was a rate limit.  Returns the slept wait and the new state. -/
def poll_error_step (json_loads : String → Option (Option Int))
    (st : PollState) (error_str : String) : Int × PollState :=
  let classified := parse_error_and_get_wait_time json_loads st error_str
  let error_type := classified.1
  let wait_seconds := classified.2
  let st1 : PollState :=
    { st with poll_consecutive_errors := st.poll_consecutive_errors + 1 }
  if error_type = "rate_limit" then
    (wait_seconds, st1)
  else if error_type = "connection_timeout" ||
      error_type = "connection_error" then
    (wait_seconds,
      { st1 with poll_backoff := min (st1.poll_backoff * 2) poll_backoff_max })
  else
    (wait_seconds,
      { st1 with poll_backoff := min (st1.poll_backoff * 2) poll_backoff_max })

/-- The successful-poll path of one poll_and_store iteration (source lines
386-421): on an empty parse, and on a parsed mention whose store succeeded,
a positive consecutive error counter is reset to 0 with the backoff reset
to 5; on a parsed mention whose store failed (duplicate) the state is left
unchanged. -/
def poll_success_step (st : PollState) (parsed : Option QMsg)
    (store_ok : Bool) : PollState :=
  match parsed with
  | none =>
    if 0 < st.poll_consecutive_errors then
      { poll_backoff := 5, poll_consecutive_errors := 0 }
    else st
  | some _ =>
    if store_ok then
      if 0 < st.poll_consecutive_errors then
        { poll_backoff := 5, poll_consecutive_errors := 0 }
      else st
    else st

/-- A run of consecutive failing poll iterations: the list of slept waits
and the final state. -/
def poll_error_run (json_loads : String → Option (Option Int))
    (st : PollState) : List String → List Int × PollState
  | [] => ([], st)
  | e :: es =>
    let r := poll_error_step json_loads st e
    let rest := poll_error_run json_loads r.2 es
    (r.1 :: rest.1, rest.2)

/-- Connection-class error text: matched by the timeout or connection
branches of _parse_error_and_get_wait_time and not by its rate-limit
branch. -/
def is_connection_class (error_str : String) : Bool :=
  !(str_contains error_str "HTTP 429" ||
      str_contains (str_to_lower error_str) "rate_limited") &&
    (str_contains error_str "ConnectTimeoutError" ||
      str_contains error_str "Connection timeout" ||
      str_contains error_str "TimeoutError" ||
      str_contains error_str "ECONNRESET" ||
      str_contains error_str "ConnectionResetError" ||
      str_contains error_str "ConnectionRefusedError" ||
      str_contains error_str "OSError")

/-- The LivenessRecord dataclass of monitoring/liveness.py.  Timestamps and
the timeout timedelta are modelled as integers; the metadata dictionary is
not needed by any claim and is omitted. -/
structure LivenessRecord where
  name : String
  timeout : Int
  last_heartbeat : Option Int := none
  consecutive_misses : Nat := 0
  deriving DecidableEq

/-- LivenessRecord.beat: store the current time as the last heartbeat and
reset the consecutive miss counter. -/
def LivenessRecord.beat (r : LivenessRecord) (now : Int) : LivenessRecord :=
  { r with last_heartbeat := some now, consecutive_misses := 0 }

/-- LivenessRecord.mark_miss: increment the consecutive miss counter. -/
def LivenessRecord.mark_miss (r : LivenessRecord) : LivenessRecord :=
  { r with consecutive_misses := r.consecutive_misses + 1 }

/-- LivenessRecord.is_alive: false when no heartbeat was ever recorded,
otherwise true exactly when the elapsed time since the last heartbeat is at
most the timeout. -/
def LivenessRecord.is_alive (r : LivenessRecord) (now : Int) : Bool :=
  match r.last_heartbeat with
  | none => false
  | some t => decide (now - t ≤ r.timeout)

/-- Result of a startup sweep: how many messages were stored (the fetched
counter of the source) and how many calls to the remote messages tool were
made. -/
structure SweepResult where
  fetched : Nat
  calls : Nat
  deriving DecidableEq

/-- The safety limit max_iterations of QueueManager._startup_sweep. -/
def startup_sweep_max_iterations : Nat := 200

/-- Loop body of QueueManager._startup_sweep (source lines 294-341), with
the remaining iteration budget as fuel (the source counts iteration upward
against max_iterations; here fuel = max_iterations - iteration, and the
iteration counter increments exactly once per completed pass, so the pass
number equals the running call count).  Each pass: break when a positive
limit has been reached by the fetched counter; otherwise call the tool
(responses indexed by call number give the parse outcome and the store
outcome); break on an empty parse; count the message when the store
succeeded; continue. -/
def startup_sweep_loop (lim : Nat)
    (responses : Nat → Option QMsg × Bool) (fetched calls : Nat) :
    Nat → SweepResult
  | 0 => { fetched := fetched, calls := calls }
  | fuel + 1 =>
    if 0 < lim ∧ lim ≤ fetched then { fetched := fetched, calls := calls }
    else
      match responses calls with
      | (none, _) => { fetched := fetched, calls := calls + 1 }
      | (some _, store_ok) =>
        startup_sweep_loop lim responses
          (if store_ok then fetched + 1 else fetched) (calls + 1) fuel

/-- QueueManager._startup_sweep run from its initial counters. -/
def startup_sweep (lim : Nat) (responses : Nat → Option QMsg × Bool) :
    SweepResult :=
  startup_sweep_loop lim responses 0 0 startup_sweep_max_iterations

/-- A message object of the structured messages or events arrays of the
remote tool result (keys id, sender_name, content). -/
structure SrvMsg where
  id : String
  sender : String
  content : String
  deriving DecidableEq

/-- Match of the mention regular expression tail at the current position:
the at-sign followed by the agent name, followed by whitespace or the end
of the content.  This is the at-agent(whitespace-or-end) part of the
pattern built at source line 121. -/
def mention_tail_ok (agent : List Char) (t : List Char) : Bool :=
  List.isPrefixOf ('@' :: agent) t &&
    (match List.drop (agent.length + 1) t with
     | [] => true
     | c :: _ => is_py_space c)

/-- Scan for a mention-tail match placed right after a whitespace
character, the non-start alternative of the (start-or-whitespace) prefix of
the mention pattern. -/
def scan_after_ws (agent : List Char) : List Char → Bool
  | [] => false
  | c :: rest => (is_py_space c && mention_tail_ok agent rest) ||
      scan_after_ws agent rest

/-- The direct-mention test of _parse_message: the regular expression
(start-or-whitespace) at-agent (whitespace-or-end) matches somewhere in the
content. -/
def has_direct_mention (agent : List Char) (s : List Char) : Bool :=
  mention_tail_ok agent s || scan_after_ws agent s

/-- The structured-messages branch of _parse_message (source lines
115-137): return the first entry whose content directly mentions the
agent, skipping self-mentions, and none when no entry qualifies. -/
def parse_messages_list (agent_name : String) :
    List SrvMsg → Option (String × String × String)
  | [] => none
  | m :: rest =>
    if has_direct_mention agent_name.toList m.content.toList then
      if m.sender = agent_name then parse_messages_list agent_name rest
      else some (m.id, m.sender, m.content)
    else parse_messages_list agent_name rest

/-- Character class of the id tag pattern of source line 171: lowercase hex
digits and dashes. -/
def is_hex_dash (c : Char) : Bool :=
  ('a' ≤ c && c ≤ 'f') || ('0' ≤ c && c ≤ '9') || c = '-'

/-- Match of the id tag pattern at the current position: the literal
open-bracket id colon, then a maximal nonempty run of hex-dash characters,
then a closing bracket.  The character class excludes the closing bracket,
so the regular expression backtracking never accepts a shorter run; the
match succeeds exactly when the maximal run is nonempty and followed by the
closing bracket. -/
def id_tag_at (l : List Char) : Option String :=
  if List.isPrefixOf ['[', 'i', 'd', ':'] l then
    let rest := List.drop 4 l
    let run := List.takeWhile is_hex_dash rest
    if !(List.isEmpty run) &&
        (List.head? (List.drop (List.length run) rest) = some ']') then
      some (String.mk run)
    else none
  else none

/-- Leftmost match of the id tag pattern, as re.search scans positions left
to right. -/
def find_id_tag : List Char → Option String
  | [] => none
  | c :: rest =>
    match id_tag_at (c :: rest) with
    | some s => some s
    | none => find_id_tag rest

/-- Tail of the bullet-mention pattern after the at-name token: one or more
whitespace characters, then at least one character matched by the dot class
(anything but a newline).  The dot class also matches non-newline
whitespace, so the whole tail matches exactly when the text starts with a
whitespace character and some later character reachable through whitespace
is not a newline. -/
def bullet_dot_ok : List Char → Bool
  | [] => false
  | c :: rest => c ≠ '\n' || (is_py_space c && bullet_dot_ok rest)

/-- Combined whitespace-plus-dot tail of the bullet pattern. -/
def bullet_sep_ok : List Char → Bool
  | [] => false
  | c :: rest => is_py_space c && bullet_dot_ok rest

/-- Match of the bullet-mention pattern of source line 179 at the current
position: the bullet and a space, a nonempty colon-free sender group
followed by a colon and a space (the colon-free class excludes the colon,
so backtracking never shortens the group), an at-sign with a nonempty
non-whitespace name, then whitespace and a dot-class character.  Returns
the sender group. -/
def bullet_at (l : List Char) : Option String :=
  if List.isPrefixOf ['•', ' '] l then
    let rest := List.drop 2 l
    let sender_run := List.takeWhile (fun c => c ≠ ':') rest
    let after := List.drop (List.length sender_run) rest
    if List.isEmpty sender_run then none
    else
      match after with
      | ':' :: ' ' :: '@' :: tail =>
        let name_run := List.takeWhile (fun c => !(is_py_space c)) tail
        let after_name := List.drop (List.length name_run) tail
        if List.isEmpty name_run then none
        else if bullet_sep_ok after_name then some (String.mk sender_run)
        else none
      | _ => none
  else none

/-- Leftmost match of the bullet-mention pattern. -/
def find_bullet_sender : List Char → Option String
  | [] => none
  | c :: rest =>
    match bullet_at (c :: rest) with
    | some s => some s
    | none => find_bullet_sender rest

/-- The text fallback branch of _parse_message (source lines 149-203),
applied to the extracted message text: reject status noise, require an id
tag and a bullet mention and a substring occurrence of at-agent, reject
self-mentions, and return the full text as the content. -/
def parse_text (agent_name : String) (messages_data : String) :
    Option (String × String × String) :=
  if str_contains messages_data "WAIT SUCCESS" ||
      str_contains messages_data "No mentions" then none
  else
    match find_id_tag messages_data.toList with
    | none => none
    | some message_id =>
      match find_bullet_sender messages_data.toList with
      | none => none
      | some sender =>
        if !(str_contains messages_data ("@" ++ agent_name)) then none
        else if sender = agent_name then none
        else some (message_id, sender, messages_data)

/-- The heterogeneous result of the remote messages tool as _parse_message
inspects it: an optional structured messages array, an optional events
array, and an optional extracted text (none models both a missing content
attribute, whose access raises and is caught as no-message, and an empty
extracted text). -/
structure MCPResult where
  messages : Option (List SrvMsg) := none
  events : Option (List SrvMsg) := none
  content : Option String := none

/-- QueueManager._parse_message (source lines 100-207): a non-empty
structured messages array is scanned for a direct mention; otherwise a
non-empty events array returns its first event with no mention check;
otherwise the extracted text goes through the text fallback. -/
def parse_message (agent_name : String) (result : MCPResult) :
    Option (String × String × String) :=
  match result.messages with
  | some (m :: ms) => parse_messages_list agent_name (m :: ms)
  | _ =>
    match result.events with
    | some (e :: _) => some (e.id, e.sender, e.content)
    | _ =>
      match result.content with
      | none => none
      | some messages_data =>
        if messages_data = "" then none
        else parse_text agent_name messages_data

/-- Position-wise boundary test before an occurrence: the occurrence starts
the content or is preceded by a whitespace character. -/
def boundary_before (s : List Char) (i : Nat) : Bool :=
  decide (i = 0) ||
    (match s[i - 1]? with
     | some c => is_py_space c
     | none => false)

/-- Position-wise boundary test after an occurrence of the at-agent token
of the given agent-name length: the occurrence ends the content or is
followed by a whitespace character. -/
def boundary_after (s : List Char) (i : Nat) (alen : Nat) : Bool :=
  match s[i + 1 + alen]? with
  | none => true
  | some c => is_py_space c

/-- C2: the pending-message fetch order is descending by timestamp (FILO)
when the backlog count is at most 100 and ascending (FIFO) when it exceeds
100; backlog 100 selects FILO and 101 selects FIFO; the choice is a
function of the current backlog count alone and is re-made every iteration
(the trace of an iteration placed after any history of iterations starts
with the fetch at the order chosen from its own backlog count). -/
theorem fetch_order_threshold :
    processing_order 100 = "desc" ∧
    processing_order 101 = "asc" ∧
    (∀ b : Nat, processing_order b = if 100 < b then "asc" else "desc") ∧
    (∀ (b : Nat) (pending : List QMsg) (hres : Except Unit String),
      List.head? (process_queue_iteration false false b pending hres) =
        some (Action.fetch_pending (processing_order b) 100)) ∧
    (∀ (before after : List IterInput) (b : Nat) (pending : List QMsg)
        (hres : Except Unit String),
      (process_queue_run
          (before ++
            { kill_switch := false, paused := false, backlog := b,
              pending := pending, handler_result := hres } :: after))[before.length]? =
        some (process_queue_iteration false false b pending hres)) := by
  refine ⟨rfl, rfl, fun b => rfl, fun b pending hres => ?_, ?_⟩
  · cases pending <;> rfl
  · intro before after b pending hres
    rw [process_queue_run, List.map_append, List.map_cons,
      List.getElem?_append_right (by simp)]
    simp

/-- C1: in every processor iteration that fetches a non-empty batch, every
fetched message is marked processing before the handler is invoked and
marked processed afterwards, for every handler outcome (the handler result
is universally quantified, covering returns and raised exceptions, and a
failing send leads through the except clause to the same mark_processed
effects). -/
theorem marks_bracket_handler (b : Nat) (pending : List QMsg)
    (hres : Except Unit String) :
    ∀ m ∈ pending, ∃ inp : HandlerInput,
      List.Sublist
        [Action.mark_processing_started m.id, Action.invoke_handler inp,
          Action.mark_processed m.id]
        (process_queue_iteration false false b pending hres) := by
  cases pending with
  | nil => intro m hm; cases hm
  | cons first rest =>
    intro m hm
    refine ⟨build_handler_input (processing_order b) b first rest, ?_⟩
    have h1 :
        List.Sublist [Action.mark_processing_started m.id]
          (List.map (fun x => Action.mark_processing_started x.id)
            (first :: rest)) := by
      have := List.singleton_sublist.mpr hm
      simpa using List.Sublist.map (fun x => Action.mark_processing_started x.id) this
    have h3 :
        List.Sublist [Action.mark_processed m.id]
          (List.map (fun x => Action.mark_processed x.id) (first :: rest)) := by
      have := List.singleton_sublist.mpr hm
      simpa using List.Sublist.map (fun x => Action.mark_processed x.id) this
    have h2 :
        List.Sublist
          ([Action.mark_processing_started m.id] ++
            [Action.invoke_handler (build_handler_input (processing_order b) b first rest)] ++
            [] ++ [Action.mark_processed m.id])
          ((List.map (fun x => Action.mark_processing_started x.id) (first :: rest)) ++
            [Action.invoke_handler (build_handler_input (processing_order b) b first rest)] ++
            (match hres with
              | Except.ok response =>
                if should_send_response response then
                  [Action.send_message response first.id]
                else []
              | Except.error _ => []) ++
            (List.map (fun x => Action.mark_processed x.id) (first :: rest))) :=
      List.Sublist.append
        (List.Sublist.append
          (List.Sublist.append h1 (List.Sublist.refl _)) (List.nil_sublist _))
        h3
    simpa [process_queue_iteration] using List.Sublist.cons _ h2

/-- Closed instance of the C1 theorem at a concrete one-message batch. -/
theorem marks_bracket_handler_witness :
    ∃ inp : HandlerInput,
      List.Sublist
        [Action.mark_processing_started "m1", Action.invoke_handler inp,
          Action.mark_processed "m1"]
        (process_queue_iteration false false 1
          [{ id := "m1", sender := "alice", content := "hi", timestamp := 1 }]
          (Except.error ())) :=
  marks_bracket_handler 1
    [{ id := "m1", sender := "alice", content := "hi", timestamp := 1 }]
    (Except.error ())
    { id := "m1", sender := "alice", content := "hi", timestamp := 1 }
    (by simp)

/-- C3: for a fetched batch of more than one message, the handler input
built by the iteration has the first fetched message as its current
message, its history is the remaining fetched tail reversed in FILO mode
and kept as fetched in FIFO mode, and when the batch is sorted the way the
chosen fetch order promises, the history is chronological and the current
message is the newest (FILO) or oldest (FIFO) of the batch. -/
theorem batch_current_and_history (b : Nat) (first : QMsg) (rest : List QMsg)
    (hres : Except Unit String) (inp : HandlerInput)
    (hbatch : rest ≠ [])
    (hinp : inp = build_handler_input (processing_order b) b first rest) :
    (Action.invoke_handler inp ∈
        process_queue_iteration false false b (first :: rest) hres) ∧
    inp.content = first.content ∧ inp.sender = first.sender ∧
    inp.id = first.id ∧ inp.timestamp = first.timestamp ∧
    inp.batch_mode = true ∧ inp.batch_size = rest.length + 1 ∧
    inp.history_messages =
      (if processing_order b = "desc" then rest.reverse else rest) ∧
    (b ≤ 100 →
      List.Pairwise (fun x y : QMsg => y.timestamp ≤ x.timestamp)
          (first :: rest) →
      List.Pairwise (fun x y : QMsg => x.timestamp ≤ y.timestamp)
          inp.history_messages ∧
        ∀ m ∈ first :: rest, m.timestamp ≤ first.timestamp) ∧
    (100 < b →
      List.Pairwise (fun x y : QMsg => x.timestamp ≤ y.timestamp)
          (first :: rest) →
      List.Pairwise (fun x y : QMsg => x.timestamp ≤ y.timestamp)
          inp.history_messages ∧
        ∀ m ∈ first :: rest, first.timestamp ≤ m.timestamp) := by
  have hlen : 1 < (first :: rest).length := by
    cases rest with
    | nil => exact absurd rfl hbatch
    | cons r rs => simp
  have hfields :
      inp.content = first.content ∧ inp.sender = first.sender ∧
        inp.id = first.id ∧ inp.timestamp = first.timestamp ∧
        inp.batch_mode = true ∧ inp.batch_size = rest.length + 1 ∧
        inp.history_messages =
          (if processing_order b = "desc" then rest.reverse else rest) := by
    subst hinp
    simp [build_handler_input, List.length_pos.mpr hbatch]
  refine ⟨?_, hfields.1, hfields.2.1, hfields.2.2.1, hfields.2.2.2.1,
    hfields.2.2.2.2.1, hfields.2.2.2.2.2.1, hfields.2.2.2.2.2.2, ?_, ?_⟩
  · subst hinp
    simp [process_queue_iteration]
  · intro hb hp
    have horder : processing_order b = "desc" := by
      simp [processing_order, Nat.not_lt.mpr hb]
    have hhist : inp.history_messages = rest.reverse := by
      rw [hfields.2.2.2.2.2.2, horder, if_pos rfl]
    rw [List.pairwise_cons] at hp
    constructor
    · rw [hhist]
      exact List.pairwise_reverse.mpr hp.2
    · intro m hm
      rcases List.mem_cons.mp hm with hm | hm
      · exact hm ▸ le_refl _
      · exact hp.1 m hm
  · intro hb hp
    have horder : processing_order b = "asc" := by
      simp [processing_order, hb]
    have hhist : inp.history_messages = rest := by
      rw [hfields.2.2.2.2.2.2, horder]
      simp
    rw [List.pairwise_cons] at hp
    constructor
    · rw [hhist]
      exact hp.2
    · intro m hm
      rcases List.mem_cons.mp hm with hm | hm
      · exact hm ▸ le_refl _
      · exact hp.1 m hm

/-- Closed instance of the C3 theorem: a two-message FILO batch at backlog 2
yields the newest message as current and the reversed tail as history. -/
theorem batch_current_and_history_witness :
    (Action.invoke_handler
        (build_handler_input (processing_order 2) 2
          { id := "m2", sender := "bob", content := "b", timestamp := 2 }
          [{ id := "m1", sender := "alice", content := "a", timestamp := 1 }]) ∈
      process_queue_iteration false false 2
        [{ id := "m2", sender := "bob", content := "b", timestamp := 2 },
          { id := "m1", sender := "alice", content := "a", timestamp := 1 }]
        (Except.ok "r")) ∧
    (build_handler_input (processing_order 2) 2
        { id := "m2", sender := "bob", content := "b", timestamp := 2 }
        [{ id := "m1", sender := "alice", content := "a", timestamp := 1 }]).history_messages =
      [{ id := "m1", sender := "alice", content := "a", timestamp := 1 }] := by
  have h := batch_current_and_history 2
    { id := "m2", sender := "bob", content := "b", timestamp := 2 }
    [{ id := "m1", sender := "alice", content := "a", timestamp := 1 }]
    (Except.ok "r")
    (build_handler_input (processing_order 2) 2
      { id := "m2", sender := "bob", content := "b", timestamp := 2 }
      [{ id := "m1", sender := "alice", content := "a", timestamp := 1 }])
    (by simp) rfl
  exact ⟨h.1, by rw [h.2.2.2.2.2.2.2.1]; rfl⟩

/-- C4: when the handler returns, the coerced response is sent exactly when
it is neither empty nor whitespace-only, the send carries the response as
content and the first fetched message id as parent_message_id, and no send
occurs otherwise. -/
theorem send_guard (b : Nat) (first : QMsg) (rest : List QMsg)
    (response : String) :
    (should_send_response response = false ↔
      List.all response.toList is_py_space = true) ∧
    (should_send_response response = false →
      List.countP is_send
        (process_queue_iteration false false b (first :: rest)
          (Except.ok response)) = 0) ∧
    (should_send_response response = true →
      List.countP is_send
        (process_queue_iteration false false b (first :: rest)
          (Except.ok response)) = 1 ∧
      Action.send_message response first.id ∈
        process_queue_iteration false false b (first :: rest)
          (Except.ok response)) := by
  refine ⟨?_, ?_, ?_⟩
  · unfold should_send_response
    rcases h : response.toList with _ | ⟨c, cs⟩
    · simp
    · simp [List.all_eq_true, List.any_eq_false]
  · intro hsend
    simp [process_queue_iteration, List.countP_cons, List.countP_append,
      List.countP_map, is_send, hsend, Function.comp_def, List.countP_false]
  · intro hsend
    constructor
    · simp [process_queue_iteration, List.countP_cons, List.countP_append,
        List.countP_map, is_send, hsend, Function.comp_def, List.countP_false]
    · simp [process_queue_iteration, hsend]

/-- Closed instance of the C4 theorem: a non-blank response is sent once,
threaded to the first fetched message, and a whitespace-only response is
never sent. -/
theorem send_guard_witness :
    (List.countP is_send
        (process_queue_iteration false false 1
          [{ id := "m1", sender := "alice", content := "hi", timestamp := 1 }]
          (Except.ok "pong")) = 1 ∧
      Action.send_message "pong" "m1" ∈
        process_queue_iteration false false 1
          [{ id := "m1", sender := "alice", content := "hi", timestamp := 1 }]
          (Except.ok "pong")) ∧
    List.countP is_send
        (process_queue_iteration false false 1
          [{ id := "m1", sender := "alice", content := "hi", timestamp := 1 }]
          (Except.ok "  ")) = 0 :=
  ⟨(send_guard 1
      { id := "m1", sender := "alice", content := "hi", timestamp := 1 } []
      "pong").2.2 (by decide),
    (send_guard 1
      { id := "m1", sender := "alice", content := "hi", timestamp := 1 } []
      "  ").2.1 (by decide)⟩

/-- Classification of a non-rate-limit error always sleeps the current
backoff capped at the ceiling and then doubles the backoff up to the
ceiling, whether the error is a connection timeout, a connection error or
unknown. -/
theorem poll_error_step_not_rate_limit
    (json_loads : String → Option (Option Int)) (st : PollState) (e : String)
    (ha : str_contains e "HTTP 429" = false)
    (hb : str_contains (str_to_lower e) "rate_limited" = false) :
    poll_error_step json_loads st e =
      (Int.ofNat (min st.poll_backoff poll_backoff_max),
        { poll_backoff := min (st.poll_backoff * 2) poll_backoff_max,
          poll_consecutive_errors := st.poll_consecutive_errors + 1 }) := by
  unfold poll_error_step parse_error_and_get_wait_time
  rw [ha, hb]
  by_cases h1 : (str_contains e "ConnectTimeoutError" ||
      str_contains e "Connection timeout" ||
      str_contains e "TimeoutError") = true
  · simp [h1]
  · by_cases h2 : (str_contains e "ECONNRESET" ||
        str_contains e "ConnectionResetError" ||
        str_contains e "ConnectionRefusedError" ||
        str_contains e "OSError") = true
    · simp [h1, h2]
    · simp [h1, h2]

/-- Capping twice at the ceiling is the same as capping once. -/
theorem min_cap_double (a : Nat) : min (min a 60 * 2) 60 = min (a * 2) 60 := by
  rcases Nat.le_total a 60 with h | h
  · rw [Nat.min_eq_left h]
  · rw [Nat.min_eq_right h]
    omega

/-- Ladder shape of the backoff along a run of connection-class failures:
starting from a backoff of the capped form, the k-th slept wait is the
capped doubled value. -/
theorem poll_error_run_ladder_aux (json_loads : String → Option (Option Int))
    (es : List String) (j : Nat) (st : PollState)
    (hst : st.poll_backoff = min (5 * 2 ^ j) 60)
    (h : ∀ e ∈ es, is_connection_class e = true) :
    ∀ k, k < ((poll_error_run json_loads st es).1).length →
      ((poll_error_run json_loads st es).1)[k]? =
        some (Int.ofNat (min (5 * 2 ^ (j + k)) 60)) := by
  induction es generalizing st j with
  | nil =>
    intro k hk
    simp [poll_error_run] at hk
  | cons e es ih =>
    intro k hk
    have he := h e (by simp)
    simp only [is_connection_class, Bool.and_eq_true, Bool.not_eq_true',
      Bool.or_eq_false_iff] at he
    have hstep := poll_error_step_not_rate_limit json_loads st e he.1.1 he.1.2
    have hwait : Int.ofNat (min st.poll_backoff poll_backoff_max) =
        Int.ofNat (min (5 * 2 ^ j) 60) := by
      rw [hst]
      congr 1
      rw [poll_backoff_max, Nat.min_assoc, Nat.min_self]
    have hnew : min (st.poll_backoff * 2) poll_backoff_max =
        min (5 * 2 ^ (j + 1)) 60 := by
      rw [hst, poll_backoff_max, min_cap_double, pow_succ, ← Nat.mul_assoc]
    cases k with
    | zero =>
      simp only [poll_error_run, hstep, List.getElem?_cons_zero, Nat.add_zero]
      rw [hwait]
    | succ k2 =>
      simp only [poll_error_run, hstep, List.getElem?_cons_succ]
      have hlen : k2 < ((poll_error_run json_loads
          { poll_backoff := min (5 * 2 ^ (j + 1)) 60,
            poll_consecutive_errors := st.poll_consecutive_errors + 1 }
          es).1).length := by
        simp only [poll_error_run, hstep, List.length_cons, hnew] at hk
        exact Nat.lt_of_succ_lt_succ hk
      have := ih (j + 1)
        { poll_backoff := min (5 * 2 ^ (j + 1)) 60,
          poll_consecutive_errors := st.poll_consecutive_errors + 1 }
        rfl (fun e2 he2 => h e2 (by simp [he2])) k2 hlen
      rw [hnew, this]
      have hexp : j + 1 + k2 = j + (k2 + 1) := by omega
      rw [hexp]

/-- C6: starting from the reset backoff of 5, consecutive connection-class
poll failures sleep the ladder 5, 10, 20, 40, 60, 60, ...: the k-th wait is
the doubling 5 * 2 ^ k capped at 60, and no slept wait ever exceeds 60. -/
theorem connection_backoff_ladder (json_loads : String → Option (Option Int))
    (es : List String) (h : ∀ e ∈ es, is_connection_class e = true) :
    (∀ k, k < ((poll_error_run json_loads
        { poll_backoff := 5, poll_consecutive_errors := 0 } es).1).length →
      ((poll_error_run json_loads
          { poll_backoff := 5, poll_consecutive_errors := 0 } es).1)[k]? =
        some (Int.ofNat (min (5 * 2 ^ k) 60))) ∧
    (∀ w ∈ (poll_error_run json_loads
        { poll_backoff := 5, poll_consecutive_errors := 0 } es).1, w ≤ 60) := by
  have hbase : (5 : Nat) = min (5 * 2 ^ 0) 60 := by decide
  have hmain := poll_error_run_ladder_aux json_loads es 0
    { poll_backoff := 5, poll_consecutive_errors := 0 } (by decide) h
  constructor
  · intro k hk
    have := hmain k hk
    rw [this, Nat.zero_add]
  · intro w hw
    rcases List.getElem?_of_mem hw with ⟨i, hi⟩
    have hlen : i < ((poll_error_run json_loads
        { poll_backoff := 5, poll_consecutive_errors := 0 } es).1).length := by
      by_contra hcon
      rw [List.getElem?_eq_none (Nat.le_of_not_lt hcon)] at hi
      cases hi
    have := hmain i hlen
    rw [this] at hi
    injection hi with hw2
    subst hw2
    have hle : min (5 * 2 ^ (0 + i)) 60 ≤ 60 := Nat.min_le_right _ _
    exact Int.ofNat_le.mpr hle

/-- Closed instance of the C6 theorem: two consecutive connection resets
sleep 5 s then 10 s. -/
theorem connection_backoff_ladder_witness :
    ((poll_error_run (fun _ => none)
        { poll_backoff := 5, poll_consecutive_errors := 0 }
        ["ECONNRESET", "ECONNRESET"]).1)[1]? =
      some (Int.ofNat (min (5 * 2 ^ 1) 60)) :=
  (connection_backoff_ladder (fun _ => none) ["ECONNRESET", "ECONNRESET"]
    (by decide)).1 1 (by decide)

/-- C5: a poll failure whose text matches HTTP 429 or contains rate_limited
sleeps exactly the structured retry_after value when the JSON decode of the
braced slice yields one, sleeps 30 seconds when there is no braced payload
or the decode fails or lacks the key, and leaves the exponential backoff
unchanged. -/
theorem rate_limit_wait_and_backoff
    (json_loads : String → Option (Option Int)) (st : PollState)
    (error_str : String)
    (h : str_contains error_str "HTTP 429" = true ∨
      str_contains (str_to_lower error_str) "rate_limited" = true) :
    ((poll_error_step json_loads st error_str).2.poll_backoff =
        st.poll_backoff) ∧
    (∀ n : Int, json_loads (brace_slice error_str) = some (some n) →
      str_contains error_str "\x7b" = true →
      (poll_error_step json_loads st error_str).1 = n) ∧
    ((str_contains error_str "\x7b" = false ∨
        json_loads (brace_slice error_str) = none ∨
        json_loads (brace_slice error_str) = some none) →
      (poll_error_step json_loads st error_str).1 = 30) := by
  have hor : (str_contains error_str "HTTP 429" ||
      str_contains (str_to_lower error_str) "rate_limited") = true := by
    rcases h with h | h <;> simp [h]
  cases hb : str_contains error_str "\x7b" with
  | false =>
    refine ⟨?_, ?_, ?_⟩ <;>
      simp [poll_error_step, parse_error_and_get_wait_time, hor, hb]
  | true =>
    cases hj : json_loads (brace_slice error_str) with
    | none =>
      refine ⟨?_, ?_, ?_⟩ <;>
        simp [poll_error_step, parse_error_and_get_wait_time, hor, hb, hj]
    | some r =>
      cases r with
      | none =>
        refine ⟨?_, ?_, ?_⟩ <;>
          simp [poll_error_step, parse_error_and_get_wait_time, hor, hb, hj]
      | some n =>
        refine ⟨?_, ?_, ?_⟩ <;>
          simp [poll_error_step, parse_error_and_get_wait_time, hor, hb, hj]

/-- Closed instance of the C5 theorem: a rate-limit payload carrying
retry_after 27 sleeps exactly 27 s and keeps the backoff at 5. -/
theorem rate_limit_wait_and_backoff_witness :
    (poll_error_step (fun _ => some (some 27))
        { poll_backoff := 5, poll_consecutive_errors := 0 }
        "HTTP 429 \x7b\x22retry_after\x22:27\x7d").2.poll_backoff = 5 ∧
    (poll_error_step (fun _ => some (some 27))
        { poll_backoff := 5, poll_consecutive_errors := 0 }
        "HTTP 429 \x7b\x22retry_after\x22:27\x7d").1 = 27 := by
  have h := rate_limit_wait_and_backoff (fun _ => some (some 27))
    { poll_backoff := 5, poll_consecutive_errors := 0 }
    "HTTP 429 \x7b\x22retry_after\x22:27\x7d" (Or.inl (by decide))
  exact ⟨h.1, h.2.1 27 rfl (by decide)⟩

/-- C7 counterexample: after an error streak of one connection failure
(state backoff 10, one consecutive error), a successful poll that yields a
mention whose store fails as a duplicate leaves the backoff at 10 and the
error count at 1 instead of resetting them. -/
theorem poll_success_duplicate_no_reset :
    (poll_success_step
        (poll_error_step (fun _ => none)
          { poll_backoff := 5, poll_consecutive_errors := 0 }
          "ECONNRESET").2
        (some { id := "m1", sender := "alice", content := "hi", timestamp := 1 })
        false).poll_backoff = 10 ∧
    (poll_success_step
        (poll_error_step (fun _ => none)
          { poll_backoff := 5, poll_consecutive_errors := 0 }
          "ECONNRESET").2
        (some { id := "m1", sender := "alice", content := "hi", timestamp := 1 })
        false).poll_consecutive_errors = 1 := by
  constructor <;> decide

/-- C7 amended: after an error streak, the first successful poll that comes
back empty, or whose parsed mention is stored successfully, resets the
backoff to 5 and the consecutive error count to 0 (a successful poll whose
store fails as a duplicate does not, per the counterexample). -/
theorem poll_success_reset (st : PollState) (parsed : Option QMsg)
    (store_ok : Bool) (hst : 0 < st.poll_consecutive_errors)
    (h : parsed = none ∨ store_ok = true) :
    poll_success_step st parsed store_ok =
      { poll_backoff := 5, poll_consecutive_errors := 0 } := by
  rcases h with h | h
  · subst h
    simp [poll_success_step, hst]
  · subst h
    cases parsed with
    | none => simp [poll_success_step, hst]
    | some m => simp [poll_success_step, hst]

/-- Closed instance of the amended C7 theorem at an empty successful poll
after a three-error streak. -/
theorem poll_success_reset_witness :
    poll_success_step { poll_backoff := 40, poll_consecutive_errors := 3 }
        none false =
      { poll_backoff := 5, poll_consecutive_errors := 0 } :=
  poll_success_reset { poll_backoff := 40, poll_consecutive_errors := 3 }
    none false (by decide) (Or.inl rfl)

/-- Upper bound on the number of remote calls the sweep loop makes: at most
one per unit of remaining fuel. -/
theorem startup_sweep_loop_calls_le (lim : Nat)
    (responses : Nat → Option QMsg × Bool) (fuel : Nat) :
    ∀ fetched calls,
      (startup_sweep_loop lim responses fetched calls fuel).calls ≤
        calls + fuel := by
  induction fuel with
  | zero =>
    intro fetched calls
    simp [startup_sweep_loop]
  | succ n ih =>
    intro fetched calls
    simp only [startup_sweep_loop]
    by_cases hbreak : 0 < lim ∧ lim ≤ fetched
    · rw [if_pos hbreak]
      show calls ≤ calls + (n + 1)
      omega
    · rw [if_neg hbreak]
      rcases hr : responses calls with ⟨p, s⟩
      cases p with
      | none =>
        show calls + 1 ≤ calls + (n + 1)
        omega
      | some q =>
        have := ih (if s then fetched + 1 else fetched) (calls + 1)
        show (startup_sweep_loop lim responses
            (if s = true then fetched + 1 else fetched) (calls + 1) n).calls ≤
          calls + (n + 1)
        omega

/-- The fetched counter of the sweep loop never exceeds a positive limit it
starts below. -/
theorem startup_sweep_loop_fetched_le (lim : Nat)
    (responses : Nat → Option QMsg × Bool) (fuel : Nat) (hpos : 0 < lim) :
    ∀ fetched calls, fetched ≤ lim →
      (startup_sweep_loop lim responses fetched calls fuel).fetched ≤ lim := by
  induction fuel with
  | zero =>
    intro fetched calls hf
    simpa [startup_sweep_loop] using hf
  | succ n ih =>
    intro fetched calls hf
    simp only [startup_sweep_loop]
    by_cases hbreak : 0 < lim ∧ lim ≤ fetched
    · rw [if_pos hbreak]
      simpa using hf
    · rw [if_neg hbreak]
      have hlt : fetched < lim := by
        rcases Nat.lt_or_ge fetched lim with hlt | hge
        · exact hlt
        · exact absurd ⟨hpos, hge⟩ hbreak
      rcases hr : responses calls with ⟨p, s⟩
      cases p with
      | none => simpa using hf
      | some q =>
        apply ih
        cases s <;> simp <;> omega

/-- C8: every startup sweep terminates within the 200-iteration safety cap
(at most 200 remote calls for every limit, including the unlimited limit
0); with a positive limit it never stores more than that many messages, the
loop stops immediately once the limit has been reached, and the loop stops
right after any call whose parse yields no relevant mention. -/
theorem startup_sweep_terminates (lim : Nat)
    (responses : Nat → Option QMsg × Bool) :
    ((startup_sweep lim responses).calls ≤ startup_sweep_max_iterations) ∧
    (0 < lim → (startup_sweep lim responses).fetched ≤ lim) ∧
    (∀ fetched calls fuel, 0 < lim → lim ≤ fetched →
      startup_sweep_loop lim responses fetched calls fuel =
        { fetched := fetched, calls := calls }) ∧
    (∀ fetched calls fuel, ¬(0 < lim ∧ lim ≤ fetched) →
      (responses calls).1 = none →
      startup_sweep_loop lim responses fetched calls (fuel + 1) =
        { fetched := fetched, calls := calls + 1 }) := by
  refine ⟨?_, ?_, ?_, ?_⟩
  · have := startup_sweep_loop_calls_le lim responses
      startup_sweep_max_iterations 0 0
    simpa [startup_sweep] using this
  · intro hpos
    exact startup_sweep_loop_fetched_le lim responses
      startup_sweep_max_iterations hpos 0 0 (Nat.zero_le lim)
  · intro fetched calls fuel h1 h2
    cases fuel with
    | zero => rfl
    | succ n =>
      simp only [startup_sweep_loop]
      rw [if_pos ⟨h1, h2⟩]
  · intro fetched calls fuel hnb hnone
    simp only [startup_sweep_loop]
    rw [if_neg hnb]
    rcases hr : responses calls with ⟨p, s⟩
    cases p with
    | none => rfl
    | some q =>
      rw [hr] at hnone
      simp at hnone

/-- Closed instance of the C8 theorem: with limit 1 and an always-empty
parse the sweep stays within the cap, and a loop state at the limit stops
with no further calls. -/
theorem startup_sweep_terminates_witness :
    (startup_sweep 1 (fun _ => (none, true))).calls ≤
      startup_sweep_max_iterations ∧
    startup_sweep_loop 1 (fun _ => (none, true)) 1 0 7 =
      { fetched := 1, calls := 0 } :=
  ⟨(startup_sweep_terminates 1 (fun _ => (none, true))).1,
    (startup_sweep_terminates 1 (fun _ => (none, true))).2.2.1 1 0 7
      (by decide) (by decide)⟩

/-- Head of a dropped list is the element at the dropped index. -/
theorem head_of_drop {α : Type} (l : List α) (n : Nat) :
    List.head? (List.drop n l) = l[n]? := by
  induction l generalizing n with
  | nil => simp
  | cons a l ih =>
    cases n with
    | zero => simp
    | succ m =>
      simp only [List.drop_succ_cons, List.getElem?_cons_succ]
      exact ih m

/-- A mention-tail match at a dropped position gives the at-agent
occurrence and its trailing boundary at that position. -/
theorem mention_tail_ok_boundary (agent s : List Char) (i : Nat)
    (h : mention_tail_ok agent (List.drop i s) = true) :
    List.isPrefixOf ('@' :: agent) (List.drop i s) = true ∧
      boundary_after s i (List.length agent) = true := by
  unfold mention_tail_ok at h
  rw [Bool.and_eq_true] at h
  refine ⟨h.1, ?_⟩
  have h2 := h.2
  have hd : List.drop (List.length agent + 1) (List.drop i s) =
      List.drop (i + 1 + List.length agent) s := by
    rw [List.drop_drop]
    congr 1
    omega
  rw [hd] at h2
  unfold boundary_after
  rw [← head_of_drop]
  cases hq : List.drop (i + 1 + List.length agent) s with
  | nil => simp
  | cons c rest =>
    rw [hq] at h2
    simpa using h2

/-- A successful whitespace scan yields a position holding a whitespace
character directly followed by a mention-tail match. -/
theorem scan_after_ws_spec (agent s : List Char)
    (h : scan_after_ws agent s = true) :
    ∃ i c, s[i]? = some c ∧ is_py_space c = true ∧
      mention_tail_ok agent (List.drop (i + 1) s) = true := by
  induction s with
  | nil => cases h
  | cons d rest ih =>
    unfold scan_after_ws at h
    rw [Bool.or_eq_true] at h
    rcases h with h | h
    · rw [Bool.and_eq_true] at h
      exact ⟨0, d, by simp, h.1, by simpa using h.2⟩
    · rcases ih h with ⟨i, c, h1, h2, h3⟩
      exact ⟨i + 1, c, by simpa using h1, h2, by simpa using h3⟩

/-- An at-agent occurrence with a nonempty pattern forces the position to
lie inside the content. -/
theorem occurrence_lt_length (agent s : List Char) (i : Nat)
    (h : List.isPrefixOf ('@' :: agent) (List.drop i s) = true) :
    i < List.length s := by
  by_contra hcon
  rw [List.drop_eq_nil_of_le (Nat.le_of_not_lt hcon)] at h
  simp [List.isPrefixOf] at h

/-- Soundness of the direct-mention test: a match yields a position of the
at-agent token with whitespace-or-start before it and whitespace-or-end
after it. -/
theorem has_direct_mention_boundary (agent s : List Char)
    (h : has_direct_mention agent s = true) :
    ∃ i, i < List.length s ∧
      List.isPrefixOf ('@' :: agent) (List.drop i s) = true ∧
      boundary_before s i = true ∧
      boundary_after s i (List.length agent) = true := by
  unfold has_direct_mention at h
  rw [Bool.or_eq_true] at h
  rcases h with h | h
  · have hb := mention_tail_ok_boundary agent s 0 (by simpa using h)
    exact ⟨0, occurrence_lt_length agent s 0 hb.1, hb.1,
      by simp [boundary_before], hb.2⟩
  · rcases scan_after_ws_spec agent s h with ⟨i, c, h1, h2, h3⟩
    have hb := mention_tail_ok_boundary agent s (i + 1) h3
    refine ⟨i + 1, occurrence_lt_length agent s (i + 1) hb.1, hb.1, ?_, hb.2⟩
    unfold boundary_before
    simp only [Nat.add_sub_cancel]
    rw [h1]
    simp [h2]

/-- Entries without a direct mention are all skipped by the
structured-messages scan. -/
theorem parse_messages_list_none (agent_name : String) (msgs : List SrvMsg)
    (h : ∀ m ∈ msgs,
      has_direct_mention agent_name.toList m.content.toList = false) :
    parse_messages_list agent_name msgs = none := by
  induction msgs with
  | nil => rfl
  | cons m rest ih =>
    have hm := h m (by simp)
    rw [parse_messages_list, if_neg (by rw [hm]; simp)]
    exact ih (fun m2 hm2 => h m2 (by simp [hm2]))

/-- C9 counterexample: the claim fails on the events fallback of
_parse_message, which returns the first event with no mention check.  The
content do task at-bobx now has its only at-bob occurrence embedded (not at
the start, not after whitespace, not before whitespace or the end), yet the
parser returns the event rather than no relevant mention. -/
theorem embedded_mention_events_counterexample :
    (∀ i, i < List.length (String.toList "do task@bobx now") →
      List.isPrefixOf ('@' :: String.toList "bob")
          (List.drop i (String.toList "do task@bobx now")) = true →
      ¬(boundary_before (String.toList "do task@bobx now") i = true ∧
        boundary_after (String.toList "do task@bobx now") i
          (List.length (String.toList "bob")) = true)) ∧
    parse_message "bob"
        { events :=
            some
              [{ id := "e1", sender := "alice", content := "do task@bobx now" }] } =
      some ("e1", "alice", "do task@bobx now") := by
  constructor
  · decide
  · rfl

/-- C9 amended: for parser inputs carrying the structured messages array
(the current aX Platform format handled by the direct-mention test), if in
every entry the agent token occurs only embedded — never at the start or
after whitespace with whitespace or the end after it — the parser returns
no relevant mention; the events and text fallbacks are exempt (the former
returns the first event without any mention check, per the
counterexample). -/
theorem embedded_mentions_rejected (agent_name : String)
    (msgs : List SrvMsg)
    (h : ∀ m ∈ msgs, ∀ i, i < List.length m.content.toList →
      List.isPrefixOf ('@' :: agent_name.toList)
          (List.drop i m.content.toList) = true →
      ¬(boundary_before m.content.toList i = true ∧
        boundary_after m.content.toList i
          (List.length agent_name.toList) = true)) :
    parse_message agent_name { messages := some msgs } = none := by
  have hlist : parse_messages_list agent_name msgs = none := by
    apply parse_messages_list_none
    intro m hm
    by_contra hcon
    rw [Bool.not_eq_false] at hcon
    rcases has_direct_mention_boundary agent_name.toList m.content.toList
      hcon with ⟨i, hlen, hp, hb, ha⟩
    exact h m hm i hlen hp ⟨hb, ha⟩
  cases msgs with
  | nil => rfl
  | cons m rest => simpa [parse_message] using hlist

/-- Closed instance of the amended C9 theorem: a structured message whose
only at-bob occurrence sits directly after non-whitespace text parses to no
relevant mention. -/
theorem embedded_mentions_rejected_witness :
    parse_message "bob"
        { messages :=
            some
              [{ id := "m1", sender := "alice", content := "see task@bobx here" }] } =
      none :=
  embedded_mentions_rejected "bob"
    [{ id := "m1", sender := "alice", content := "see task@bobx here" }]
    (by decide)

/-- C10: is_alive is false exactly when the last heartbeat is absent or the
elapsed time since it exceeds the timeout, and beat stores the current time
and resets the consecutive miss counter to zero. -/
theorem liveness_alive_iff_and_beat (r : LivenessRecord) (now : Int) :
    (LivenessRecord.is_alive r now = false ↔
      (r.last_heartbeat = none ∨
        ∃ t, r.last_heartbeat = some t ∧ r.timeout < now - t)) ∧
    (LivenessRecord.beat r now).last_heartbeat = some now ∧
    (LivenessRecord.beat r now).consecutive_misses = 0 := by
  refine ⟨?_, rfl, rfl⟩
  cases h : r.last_heartbeat with
  | none => simp [LivenessRecord.is_alive, h]
  | some t =>
    constructor
    · intro hd
      simp only [LivenessRecord.is_alive, h] at hd
      refine Or.inr ⟨t, rfl, ?_⟩
      have := of_decide_eq_false hd
      omega
    · rintro (hc | ⟨t2, ht2, hlt⟩)
      · cases hc
      · injection ht2 with he
        subst he
        simp only [LivenessRecord.is_alive, h, decide_eq_false_iff_not, not_le]
        omega

end AxAgentStudio
